import Mathlib

/-!
Verification development for the datadetox model-lineage engine.

Shallow embedding of:
- the relationship classifier cascade of
  model-lineage/scrapers/huggingface_scraper.py,
- the graph builder of model-lineage/graph/builder.py,
- the Neo4j write path of model-lineage/graph/neo4j_client.py
  (Cypher MATCH / MERGE / SET semantics made explicit),
- the snapshot retention cleanup of model-lineage/storage/data_store.py,
- the bounded lineage query of
  backend/routers/search/utils/search_neo4j.py
  (Cypher ORDER BY / LIMIT modeled as sort-then-take).

External effects (HTTP fetches, the database connection, the filesystem)
are turned into explicit parameters: the siblings HTTP response, the graph
store content, and the directory listing are inputs of the embedded
functions.  Python string operations are modeled over character lists.
-/

/-! ## Shared string helpers -/

/-- Lowercase a string character by character (Python str.lower on ASCII ids). -/
def lowerChars (s : String) : List Char :=
  s.toList.map Char.toLower

/-- Decide whether the character list needle occurs as a contiguous
substring of the haystack (the Python `in` operator on strings). -/
def substrOccurs (needle : List Char) : List Char → Bool
  | [] => needle.isEmpty
  | c :: rest => needle.isPrefixOf (c :: rest) || substrOccurs needle rest

/-- Python membership test `pat in s.lower()` where the pattern is already
lowercase. -/
def containsPattern (s : String) (pat : String) : Bool :=
  substrOccurs pat.toList (lowerChars s)

/-! ## Relationship classifier
(huggingface_scraper.py, `_infer_relationship_type_from_name`,
`_get_relationship_type_from_tree`, `_extract_relationships`) -/

/-- Quantization filename patterns, in source order. -/
def quant_patterns : List String :=
  ["-8bit", "-4bit", "-gguf", "-gptq", "-awq", "-fp8", "-fp4", "-quantized"]

/-- Adapter filename patterns, in source order. -/
def adapter_patterns : List String :=
  ["-adapter", "-lora", "-peft", "-adapterhub"]

/-- Merge filename patterns, in source order. -/
def merge_patterns : List String :=
  ["-merge", "-merged", "-soup"]

/-- Embedding of `_infer_relationship_type_from_name`: filename-pattern
cascade quantization, adapter, merge, default finetuned.  The final branch
mirrors `if base_model and base_model != model_id` (an empty base model
string is falsy in Python). -/
def infer_relationship_type_from_name (model_id base_model : String) :
    Option String :=
  if quant_patterns.any (containsPattern model_id) then some "quantizations"
  else if adapter_patterns.any (containsPattern model_id) then some "adapters"
  else if merge_patterns.any (containsPattern model_id) then some "merges"
  else if base_model ≠ "" ∧ base_model ≠ model_id then some "finetuned"
  else none

/-- Outcome of the siblings HTTP request in
`_get_relationship_type_from_tree`: either the request failed (exception or
non-200 status) or it returned a JSON object mapping category names to
lists of sibling model ids. -/
inductive SiblingsResponse where
  | failure : SiblingsResponse
  | ok (data : List (String × List String)) : SiblingsResponse
  deriving DecidableEq, Repr

/-- The four sibling categories, in the order the source iterates them. -/
def sibling_categories : List String :=
  ["finetuned", "adapters", "merges", "quantizations"]

/-- JSON object field access `siblings_data.get(category, [])`. -/
def lookupCategory (data : List (String × List String)) (c : String) :
    List String :=
  ((data.find? (fun kv => decide (kv.1 = c))).map Prod.snd).getD []

/-- First category (in source order) whose sibling list contains the model
id; none when the request failed or the model is in no category. -/
def sibling_category (model_id : String) : SiblingsResponse → Option String
  | .failure => none
  | .ok data =>
      sibling_categories.find? (fun c =>
        decide (model_id ∈ lookupCategory data c))

/-- Embedding of `_get_relationship_type_from_tree`: the siblings API
answer is consulted first; only when it does not classify the model does
the code fall back to the filename heuristics. -/
def get_relationship_type_from_tree (model_id base_model : String)
    (resp : SiblingsResponse) : Option String :=
  match sibling_category model_id resp with
  | some c => some c
  | none => infer_relationship_type_from_name model_id base_model

/-- Relationship record as produced by `_create_relationship` and consumed
by the builder and the store (metadata values modeled as strings). -/
structure RelationshipR where
  source : String
  target : String
  relationship_type : String
  source_type : String
  target_type : String
  metadata : Option (List (String × String)) := none
  deriving DecidableEq, Repr

/-- Embedding of `_extract_relationships`.  The base model discovered from
the model card is an input (none when the card has no truthy base_model
field); the siblings response is an input as well. -/
def extract_relationships (model_id : String) (base_model : Option String)
    (resp : SiblingsResponse) : List RelationshipR :=
  match base_model with
  | none => []
  | some bm =>
      match get_relationship_type_from_tree model_id bm resp with
      | some t =>
          [{ source := model_id, target := bm, relationship_type := t,
             source_type := "model", target_type := "model" }]
      | none => []

/-! ## Snapshot relationship filter (data_store.py, `filter_relationships`) -/

/-- Default allowed relationship types of `filter_relationships`. -/
def default_allowed_types : List String :=
  ["finetuned", "adapters", "merges", "quantizations", "trained_on"]

/-- The six enumerated relationship types of the data model. -/
def six_relationship_types : List String :=
  ["based_on", "finetuned", "adapters", "merges", "quantizations",
   "trained_on"]

/-- Embedding of `filter_relationships`: keep only relationships whose type
is in the allowed list (defaulting to the five types above). -/
def filter_relationships (relationships : List RelationshipR)
    (allowed_types : Option (List String)) : List RelationshipR :=
  let allowed := allowed_types.getD default_allowed_types
  relationships.filter (fun rel => decide (rel.relationship_type ∈ allowed))

/-! ## Graph builder (graph/builder.py, `build_from_data`)
Raw records are modeled as already-shaped typed records; the per-record
pydantic validation try/except of the source can only drop records whose
shape is wrong, which the typed embedding rules out. -/

/-- ModelNode of graph/models.py. -/
structure ModelNodeR where
  model_id : String
  author : Option String := none
  downloads : Option Int := none
  likes : Option Int := none
  tags : List String := []
  library_name : Option String := none
  pipeline_tag : Option String := none
  private_flag : Bool := false
  url : String
  created_at : Option String := none
  updated_at : Option String := none
  deriving DecidableEq, Repr

/-- DatasetNode of graph/models.py. -/
structure DatasetNodeR where
  dataset_id : String
  author : Option String := none
  downloads : Option Int := none
  tags : List String := []
  deriving DecidableEq, Repr

/-- GraphData of graph/models.py (the GraphSnapshot aggregate). -/
structure GraphDataR where
  models : List ModelNodeR
  datasets : List DatasetNodeR
  relationships : List RelationshipR
  deriving DecidableEq, Repr

/-- Embedding of `build_from_data`.  The source converts a truthy supplied
dataset list, and synthesizes stub dataset nodes from relationships only
when the supplied list is falsy (None or empty: `if not datasets`).  The
Python set of target ids is modeled by deduplicating the target list (set
iteration order is arbitrary and not modeled). -/
def build_from_data (models : List ModelNodeR)
    (relationships : List RelationshipR)
    (datasets : Option (List DatasetNodeR)) : GraphDataR :=
  let model_nodes := models
  let provided := datasets.getD []
  let dataset_nodes :=
    if provided.isEmpty then
      (((relationships.filter
            (fun rel => decide (rel.target_type = "dataset"))).map
          (fun rel => rel.target)).dedup).map
        (fun dataset_id => { dataset_id := dataset_id, tags := [] })
    else provided
  { models := model_nodes, datasets := dataset_nodes,
    relationships := relationships }

/-! ## Property graph store write path
(graph/neo4j_client.py, `create_relationship`)

The Cypher statement built by the source is

  MATCH (source:SrcLabel {src_id_field: $source})
  MATCH (target:TgtLabel {tgt_id_field: $target})
  MERGE (source)-[r:REL_TYPE]->(target)
  [SET r.k = $k, ...]

with REL_TYPE and every metadata key k interpolated into the query text,
and the parameter map {source, target, **metadata} letting metadata entries
named source or target override the endpoint parameters.  Cypher semantics:
a MATCH that binds no row makes the whole statement write nothing and
complete without error; an interpolated token that is not a valid
identifier is a syntax error raised by the driver. -/

/-- Edge of the property graph, identified by endpoint labels and id
properties plus the relationship type; MERGE matches on exactly these. -/
structure Neo4jEdge where
  source_label : String
  source_id : String
  rel_type : String
  target_label : String
  target_id : String
  props : List (String × String) := []
  deriving DecidableEq, Repr

/-- Content of the Neo4j database as written by the lineage loader. -/
structure Neo4jGraph where
  models : List ModelNodeR
  datasets : List DatasetNodeR
  edges : List Neo4jEdge
  deriving DecidableEq, Repr

/-- Uppercase a string character by character (Python str.upper on ASCII). -/
def upperChars (s : String) : String :=
  String.mk (s.toList.map Char.toUpper)

/-- A token that can be interpolated into Cypher as a relationship type or
property name without a syntax error. -/
def validCypherIdent (s : String) : Bool :=
  match s.toList with
  | [] => false
  | c :: cs => (c.isAlpha || c = '_') && cs.all (fun c => c.isAlphanum || c = '_')

/-- Association list lookup (first match), Python dict access. -/
def lookup_str (k : String) : List (String × String) → Option String
  | [] => none
  | kv :: rest => if kv.1 = k then some kv.2 else lookup_str k rest

/-- Python dict update on an association list: replace in place if the key
exists, else append. -/
def dictInsert (k v : String) : List (String × String) →
    List (String × String)
  | [] => [(k, v)]
  | kv :: rest => if kv.1 = k then (k, v) :: rest else kv :: dictInsert k v rest

/-- Sequential SET of every metadata entry onto a property bag. -/
def applyProps (props : List (String × String))
    (md : List (String × String)) : List (String × String) :=
  md.foldl (fun acc kv => dictInsert kv.1 kv.2 acc) props

/-- Whether an edge is the one addressed by the MERGE pattern. -/
def edgeMatches (e : Neo4jEdge) (sl si rt tl ti : String) : Bool :=
  decide (e.source_label = sl ∧ e.source_id = si ∧ e.rel_type = rt ∧
    e.target_label = tl ∧ e.target_id = ti)

/-- MERGE plus SET: update the props of every matching edge, or append a
fresh edge carrying the metadata when none matches. -/
def mergeEdge (edges : List Neo4jEdge) (sl si rt tl ti : String)
    (md : List (String × String)) : List Neo4jEdge :=
  if edges.any (fun e => edgeMatches e sl si rt tl ti) then
    edges.map (fun e =>
      if edgeMatches e sl si rt tl ti then
        { e with props := applyProps e.props md }
      else e)
  else
    edges ++ [{ source_label := sl, source_id := si, rel_type := rt,
                target_label := tl, target_id := ti,
                props := applyProps [] md }]

/-- Node existence test of the two MATCH clauses. -/
def nodeExists (g : Neo4jGraph) (label : String) (idv : String) : Bool :=
  if label = "Model" then
    g.models.any (fun m => decide (m.model_id = idv))
  else
    g.datasets.any (fun d => decide (d.dataset_id = idv))

/-- Embedding of `create_relationship`.  The only error path is a Cypher
syntax error from an interpolated token; a MATCH that finds no node makes
the call a silent no-op. -/
def create_relationship (g : Neo4jGraph) (rel : RelationshipR) :
    Except String Neo4jGraph :=
  let source_label := if rel.source_type = "model" then "Model" else "Dataset"
  let target_label := if rel.target_type = "model" then "Model" else "Dataset"
  let rel_type := upperChars rel.relationship_type
  let md := rel.metadata.getD []
  if validCypherIdent rel_type && md.all (fun kv => validCypherIdent kv.1) then
    let sourceParam := (lookup_str "source" md).getD rel.source
    let targetParam := (lookup_str "target" md).getD rel.target
    if nodeExists g source_label sourceParam &&
        nodeExists g target_label targetParam then
      Except.ok { g with
        edges := mergeEdge g.edges source_label sourceParam rel_type
          target_label targetParam md }
    else
      Except.ok g
  else
    Except.error "Cypher syntax error"

/-! ## Snapshot retention cleanup (storage/data_store.py, `cleanup_old_files`) -/

/-- A file of the snapshot directory: its name, its modification time, and
whether an unlink attempt on it succeeds (the source logs and continues on
a failed unlink). -/
structure SnapFile where
  name : String
  mtime : Nat
  unlink_ok : Bool
  deriving DecidableEq, Repr

/-- Directory and glob pattern selected for each file type; none for an
unknown type (the source logs an error and returns). -/
def globPattern : String → Option (String × String)
  | "models" => some ("models_", ".json")
  | "datasets" => some ("datasets_", ".json")
  | "relationships" => some ("relationships_", ".json")
  | "metadata" => some ("scrape_metadata_", ".json")
  | _ => none

/-- Glob `p*.json`: the name starts with the stem, ends with the extension,
and is long enough that the two do not overlap. -/
def glob_matches (pp : String × String) (name : String) : Bool :=
  pp.1.toList.isPrefixOf name.toList && pp.2.toList.isSuffixOf name.toList &&
    decide (pp.1.toList.length + pp.2.toList.length ≤ name.toList.length)

/-- Sort by modification time, most recent first (ties arbitrary). -/
def sortByMtimeDesc (files : List SnapFile) : List SnapFile :=
  List.insertionSort (fun a b => b.mtime ≤ a.mtime) files

/-- Embedding of `cleanup_old_files` over a directory listing.  Returns the
remaining directory and the list of files actually deleted.  The companion
.dvc bookkeeping files do not match the snapshot glob and are not modeled. -/
def cleanup_old_files (keep_latest : Int) (file_type : String)
    (dir : List SnapFile) : List SnapFile × List SnapFile :=
  if keep_latest ≤ 0 then (dir, [])
  else
    match globPattern file_type with
    | none => (dir, [])
    | some pp =>
        let files := dir.filter (fun f => glob_matches pp f.name)
        if (files.length : Int) ≤ keep_latest then (dir, [])
        else
          let sorted := sortByMtimeDesc files
          let to_delete := sorted.drop keep_latest.toNat
          let deleted := to_delete.filter (fun f => f.unlink_ok)
          (dir.filter (fun f => decide (f ∉ deleted)), deleted)

/-! ## Bounded lineage query
(backend/routers/search/utils/search_neo4j.py, `search_query_impl`)

The Neo4j database is a list of labeled nodes and a list of edges between
them.  Cypher ORDER BY ... LIMIT n is modeled as sorting by the key (an
insertion sort; ties are broken arbitrarily by Neo4j and by sort stability
here) followed by take n.  In Cypher, ORDER BY x DESC places null keys
first, while ORDER BY COALESCE(x, 0) DESC treats them as zero. -/

/-- Node label in the backend store. -/
inductive NeoKind where
  | model : NeoKind
  | dataset : NeoKind
  deriving DecidableEq, Repr

/-- A stored node with the properties the loader writes. -/
structure NeoNode where
  kind : NeoKind
  node_id : String
  downloads : Option Int := none
  likes : Option Int := none
  tags : List String := []
  pipeline_tag : Option String := none
  library_name : Option String := none
  created_at : Option String := none
  url : Option String := none
  author : Option String := none
  deriving DecidableEq, Repr

/-- A stored edge; endpoints are identified by kind and id property. -/
structure NeoDBEdge where
  src_kind : NeoKind
  src_id : String
  rel_type : String
  tgt_kind : NeoKind
  tgt_id : String
  deriving DecidableEq, Repr

/-- The backend graph store. -/
structure NeoStore where
  nodes : List NeoNode
  edges : List NeoDBEdge
  deriving DecidableEq, Repr

/-- RELATIONSHIP_FILTER of search_neo4j.py. -/
def relationship_filter : List String :=
  ["BASED_ON", "FINE_TUNED", "FINETUNED", "ADAPTERS", "MERGES",
   "QUANTIZATIONS", "TRAINED_ON"]

/-- MAX_RELATED cap of search_query_impl. -/
def MAX_RELATED : Nat := 10

/-- MATCH (root:Label {id_field: $id}) RETURN root. -/
def findNode (store : NeoStore) (kind : NeoKind) (node_id : String) :
    Option NeoNode :=
  store.nodes.find? (fun n => decide (n.kind = kind ∧ n.node_id = node_id))

/-- COALESCE(downloads, 0). -/
def coalesce0 (d : Option Int) : Int := d.getD 0

/-- ORDER BY x.downloads DESC places a null key before every value. -/
def neoDescB : Option Int → Option Int → Bool
  | none, _ => true
  | some _, none => false
  | some x, some y => decide (y ≤ x)

/-- Sort query records by COALESCE(downloads, 0) descending. -/
def sortDescCoalesce (recs : List (NeoNode × String)) :
    List (NeoNode × String) :=
  List.insertionSort
    (fun a b => coalesce0 b.1.downloads ≤ coalesce0 a.1.downloads) recs

/-- Sort query records by downloads descending, null downloads first. -/
def sortDescNullsFirst (recs : List (NeoNode × String)) :
    List (NeoNode × String) :=
  List.insertionSort (fun a b => neoDescB a.1.downloads b.1.downloads = true)
    recs

/-- Upstream query for a model root: derivation and training edges leaving
the root, joined to their target node of either label, ordered by
COALESCE(downloads, 0) descending, LIMIT MAX_RELATED. -/
def model_upstream_res (store : NeoStore) (mid : String) :
    List (NeoNode × String) :=
  if (findNode store NeoKind.model mid).isSome then
    (sortDescCoalesce (store.edges.filterMap (fun e =>
      if e.src_kind = NeoKind.model ∧ e.src_id = mid ∧
          e.rel_type ∈ relationship_filter then
        (findNode store e.tgt_kind e.tgt_id).map (fun n => (n, e.rel_type))
      else none))).take MAX_RELATED
  else []

/-- Downstream query for a model root: derivation and training edges
entering the root from a Model node, ordered by downloads descending
(nulls first), LIMIT the remaining budget. -/
def model_downstream_res (store : NeoStore) (mid : String) (limit : Nat) :
    List (NeoNode × String) :=
  if (findNode store NeoKind.model mid).isSome then
    (sortDescNullsFirst (store.edges.filterMap (fun e =>
      if e.tgt_kind = NeoKind.model ∧ e.tgt_id = mid ∧
          e.rel_type ∈ relationship_filter ∧ e.src_kind = NeoKind.model then
        (findNode store NeoKind.model e.src_id).map (fun n => (n, e.rel_type))
      else none))).take limit
  else []

/-- Downstream records actually selected for a model root: the source only
issues the downstream query when the remaining budget is positive. -/
def model_downstream_selected (store : NeoStore) (mid : String) :
    List (NeoNode × String) :=
  let remaining := MAX_RELATED - (model_upstream_res store mid).length
  if 0 < remaining then model_downstream_res store mid remaining else []

/-- Whether the downstream query is issued at all for a model root
(remaining_budget > 0). -/
def downstream_issued (store : NeoStore) (mid : String) : Bool :=
  decide (0 < MAX_RELATED - (model_upstream_res store mid).length)

/-- Downstream query for a dataset root: TRAINED_ON edges entering the
dataset from Model nodes, ordered by downloads descending (nulls first),
LIMIT MAX_RELATED. -/
def dataset_downstream_res (store : NeoStore) (did : String) :
    List (NeoNode × String) :=
  if (findNode store NeoKind.dataset did).isSome then
    (sortDescNullsFirst (store.edges.filterMap (fun e =>
      if e.tgt_kind = NeoKind.dataset ∧ e.tgt_id = did ∧
          e.rel_type = "TRAINED_ON" ∧ e.src_kind = NeoKind.model then
        (findNode store NeoKind.model e.src_id).map (fun n => (n, e.rel_type))
      else none))).take MAX_RELATED
  else []

/-- Upstream query for a dataset root: any outgoing edge, ordered by
COALESCE(downloads, 0) descending, LIMIT MAX_RELATED. -/
def dataset_upstream_res (store : NeoStore) (did : String) :
    List (NeoNode × String) :=
  if (findNode store NeoKind.dataset did).isSome then
    (sortDescCoalesce (store.edges.filterMap (fun e =>
      if e.src_kind = NeoKind.dataset ∧ e.src_id = did then
        (findNode store e.tgt_kind e.tgt_id).map (fun n => (n, e.rel_type))
      else none))).take MAX_RELATED
  else []

/-- HFModel of search_neo4j.py (extra node properties are ignored by the
pydantic parse). -/
structure HFModel where
  model_id : String
  downloads : Option Int := none
  pipeline_tag : Option String := none
  created_at : Option String := none
  library_name : Option String := none
  url : Option String := none
  likes : Option Int := none
  tags : List String := []
  deriving DecidableEq, Repr

/-- HFDataset of search_neo4j.py. -/
structure HFDataset where
  dataset_id : String
  tags : List String := []
  deriving DecidableEq, Repr

/-- A node of the query result, a model or a dataset. -/
inductive HFEntity where
  | model : HFModel → HFEntity
  | dataset : HFDataset → HFEntity
  deriving DecidableEq, Repr

/-- HFRelationship of search_neo4j.py. -/
structure HFRelationship where
  source : HFEntity
  relationship : String
  target : HFEntity
  deriving DecidableEq, Repr

/-- HFGraphData of search_neo4j.py. -/
structure HFGraphData where
  nodes : List HFEntity
  relationships : List HFRelationship
  queried_model_id : Option String
  deriving DecidableEq, Repr

/-- The _make_entity / _parse_node step: a stored node becomes an HFModel
or HFDataset according to its label, dropping properties the pydantic
models do not declare. -/
def make_entity (n : NeoNode) : HFEntity :=
  match n.kind with
  | .model =>
      .model { model_id := n.node_id, downloads := n.downloads,
               pipeline_tag := n.pipeline_tag, created_at := n.created_at,
               library_name := n.library_name, url := n.url,
               likes := n.likes, tags := n.tags }
  | .dataset => .dataset { dataset_id := n.node_id, tags := n.tags }

/-- The _get_entity_id accessor. -/
def get_entity_id : HFEntity → String
  | .model m => m.model_id
  | .dataset d => d.dataset_id

/-- Python dict insertion keyed by entity id: replace in place when the id
is already present (keeping its position), else append. -/
def nodes_insert (e : HFEntity) : List HFEntity → List HFEntity
  | [] => [e]
  | x :: rest =>
      if get_entity_id x = get_entity_id e then e :: rest
      else x :: nodes_insert e rest

/-- Fold the upstream then downstream records into the node dict started
at the root entity (all_nodes_dict of the source). -/
def assemble_nodes (root : HFEntity) (ups downs : List (NeoNode × String)) :
    List HFEntity :=
  let d1 := ups.foldl (fun acc r => nodes_insert (make_entity r.1) acc) [root]
  downs.foldl (fun acc r => nodes_insert (make_entity r.1) acc) d1

/-- Embedding of `search_query_impl`: resolve the id as a Model, then as a
Dataset; unknown ids give the explicit empty result with no queried id. -/
def search_query_impl (store : NeoStore) (model_id : String) : HFGraphData :=
  match findNode store NeoKind.model model_id with
  | some rootN =>
      let root := make_entity rootN
      let ups := model_upstream_res store model_id
      let downs := model_downstream_selected store model_id
      { nodes := assemble_nodes root ups downs,
        relationships :=
          ups.map (fun r =>
            { source := root, relationship := r.2, target := make_entity r.1 })
          ++ downs.map (fun r =>
            { source := make_entity r.1, relationship := r.2, target := root }),
        queried_model_id := some model_id }
  | none =>
      match findNode store NeoKind.dataset model_id with
      | some rootN =>
          let root := make_entity rootN
          let ups := dataset_upstream_res store model_id
          let downs := dataset_downstream_res store model_id
          { nodes := assemble_nodes root ups downs,
            relationships :=
              ups.map (fun r =>
                { source := root, relationship := r.2,
                  target := make_entity r.1 })
              ++ downs.map (fun r =>
                { source := make_entity r.1, relationship := r.2,
                  target := root }),
            queried_model_id := some model_id }
      | none =>
          { nodes := [], relationships := [], queried_model_id := none }

/-! ## Concrete fixtures used by scenario conjuncts, counterexamples and
witnesses -/

/-- Model node with a given id and download count, other properties
defaulted. -/
def mkModelNode (id : String) (dl : Int) : NeoNode :=
  { kind := NeoKind.model, node_id := id, downloads := some dl }

/-- Store with one root model, 15 upstream ancestors and 3 downstream
derivatives (spec scenario for the budget split). -/
def store15_3 : NeoStore :=
  { nodes := mkModelNode "root" 0 ::
      ((List.range 15).map (fun i => mkModelNode ("u" ++ toString i) i)) ++
      ((List.range 3).map (fun i => mkModelNode ("d" ++ toString i) i)),
    edges :=
      ((List.range 15).map (fun i =>
        { src_kind := NeoKind.model, src_id := "root", rel_type := "BASED_ON",
          tgt_kind := NeoKind.model, tgt_id := "u" ++ toString i })) ++
      ((List.range 3).map (fun i =>
        { src_kind := NeoKind.model, src_id := "d" ++ toString i,
          rel_type := "FINETUNED", tgt_kind := NeoKind.model,
          tgt_id := "root" })) }

/-- Store with one root model, 4 upstream ancestors and 20 downstream
derivatives (spec scenario for the budget split). -/
def store4_20 : NeoStore :=
  { nodes := mkModelNode "root" 0 ::
      ((List.range 4).map (fun i => mkModelNode ("u" ++ toString i) i)) ++
      ((List.range 20).map (fun i => mkModelNode ("d" ++ toString i) i)),
    edges :=
      ((List.range 4).map (fun i =>
        { src_kind := NeoKind.model, src_id := "root", rel_type := "BASED_ON",
          tgt_kind := NeoKind.model, tgt_id := "u" ++ toString i })) ++
      ((List.range 20).map (fun i =>
        { src_kind := NeoKind.model, src_id := "d" ++ toString i,
          rel_type := "FINETUNED", tgt_kind := NeoKind.model,
          tgt_id := "root" })) }

/-- Store holding a model and a dataset that share the id string x, with a
training edge between them. -/
def store_clash : NeoStore :=
  { nodes := [{ kind := NeoKind.model, node_id := "x" },
              { kind := NeoKind.dataset, node_id := "x" }],
    edges := [{ src_kind := NeoKind.model, src_id := "x",
                rel_type := "TRAINED_ON", tgt_kind := NeoKind.dataset,
                tgt_id := "x" }] }

/-- Empty backend store. -/
def empty_store : NeoStore := { nodes := [], edges := [] }

/-- Relationship from a model to the dataset squad, with no dataset record
supplied (spec builder scenario). -/
def squadRel : RelationshipR :=
  { source := "m1", target := "squad", relationship_type := "trained_on",
    source_type := "model", target_type := "dataset" }

/-- A supplied dataset record that does not describe squad. -/
def otherDS : DatasetNodeR := { dataset_id := "other" }

/-- Empty property graph. -/
def neo4j_empty : Neo4jGraph := { models := [], datasets := [], edges := [] }

/-- Relationship used to exercise the store write path, carrying one
metadata entry. -/
def relWithMeta : RelationshipR :=
  { source := "m1", target := "squad", relationship_type := "trained_on",
    source_type := "model", target_type := "dataset",
    metadata := some [("confidence", "high")] }

/-- Property graph holding both endpoints of relWithMeta. -/
def graphWithEndpoints : Neo4jGraph :=
  { models := [{ model_id := "m1", url := "https://huggingface.co/m1" }],
    datasets := [{ dataset_id := "squad" }],
    edges := [] }

/-- Directory with three model snapshot files (spec retention scenario). -/
def dir3 : List SnapFile :=
  [{ name := "models_c.json", mtime := 3, unlink_ok := true },
   { name := "models_b.json", mtime := 2, unlink_ok := true },
   { name := "models_a.json", mtime := 1, unlink_ok := true }]

/-- Sample relationship for exercising the snapshot filter. -/
def sampleRel : RelationshipR :=
  { source := "m", target := "d", relationship_type := "trained_on",
    source_type := "model", target_type := "dataset" }

/-! ## Claim C2: sibling listing versus filename pattern -/

/-- C2 counterexample: with the base model siblings listing placing
base-model-4bit in the finetuned category, the classifier returns
finetuned, not quantizations — the sibling listing wins over the
filename-pattern heuristic, contrary to the claim. -/
theorem tree_sibling_overrides_pattern_cex :
    get_relationship_type_from_tree "base-model-4bit" "base-model"
        (SiblingsResponse.ok [("finetuned", ["base-model-4bit"])]) =
      some "finetuned" ∧
    ¬ get_relationship_type_from_tree "base-model-4bit" "base-model"
        (SiblingsResponse.ok [("finetuned", ["base-model-4bit"])]) =
      some "quantizations" := by
  decide

/-- C2 amended: when the sibling listing classifies the model, that
category is the result; classifying base-model-4bit with base base-model
yields quantizations exactly when the sibling listing does not classify
the model (request failure or model listed in no category). -/
theorem tree_sibling_precedence (mid bm : String) (resp : SiblingsResponse) :
    (∀ c, sibling_category mid resp = some c →
      get_relationship_type_from_tree mid bm resp = some c) ∧
    (sibling_category "base-model-4bit" resp = none →
      get_relationship_type_from_tree "base-model-4bit" "base-model" resp =
        some "quantizations") := by
  constructor
  · intro c h
    unfold get_relationship_type_from_tree
    rw [h]
  · intro h
    unfold get_relationship_type_from_tree
    rw [h]
    decide

/-- C2 witness: instantiating the amended theorem at the failed siblings
request recovers the quantizations classification. -/
theorem tree_sibling_precedence_witness :
    get_relationship_type_from_tree "base-model-4bit" "base-model"
      SiblingsResponse.failure = some "quantizations" :=
  (tree_sibling_precedence "base-model-4bit" "base-model"
    SiblingsResponse.failure).2 (by decide)

/-! ## Claim C3: base model equal to the model id -/

/-- C3 counterexample: a model whose discovered base model equals its own
id still gets a quantizations self-relationship when its name matches a
quantization pattern — the equality guard only protects the default
finetuned branch. -/
theorem classifier_self_loop_cex :
    extract_relationships "base-model-4bit" (some "base-model-4bit")
        SiblingsResponse.failure =
      [{ source := "base-model-4bit", target := "base-model-4bit",
         relationship_type := "quantizations", source_type := "model",
         target_type := "model" }] ∧
    extract_relationships "base-model-4bit" (some "base-model-4bit")
      SiblingsResponse.failure ≠ [] := by
  decide

/-- C3 amended: when the base model equals the model id, no relationship
is emitted provided no quantization, adapter or merge filename pattern
matches the model id and the sibling listing does not classify it. -/
theorem classifier_silent_on_self (mid : String) (resp : SiblingsResponse)
    (hq : quant_patterns.any (containsPattern mid) = false)
    (ha : adapter_patterns.any (containsPattern mid) = false)
    (hm : merge_patterns.any (containsPattern mid) = false)
    (hsib : sibling_category mid resp = none) :
    extract_relationships mid (some mid) resp = [] := by
  unfold extract_relationships get_relationship_type_from_tree
  rw [hsib]
  unfold infer_relationship_type_from_name
  simp [hq, ha, hm]

/-- C3 witness: the amended theorem applied to the plain id base-model
with a failed siblings request. -/
theorem classifier_silent_on_self_witness :
    extract_relationships "base-model" (some "base-model")
      SiblingsResponse.failure = [] :=
  classifier_silent_on_self "base-model" SiblingsResponse.failure
    (by decide) (by decide) (by decide) (by decide)

/-! ## Claim C7: unknown entity id gives the explicit empty result -/

/-- C7: an id matching neither a Model nor a Dataset returns empty nodes,
empty relationships and no queried id, without error. -/
theorem unknown_id_empty_result (store : NeoStore) (mid : String)
    (hm : findNode store NeoKind.model mid = none)
    (hd : findNode store NeoKind.dataset mid = none) :
    search_query_impl store mid =
      { nodes := [], relationships := [], queried_model_id := none } := by
  unfold search_query_impl
  rw [hm, hd]

/-- C7 witness: the empty store with the id unknown-id. -/
theorem unknown_id_empty_result_witness :
    search_query_impl empty_store "unknown-id" =
      { nodes := [], relationships := [], queried_model_id := none } :=
  unknown_id_empty_result empty_store "unknown-id" (by decide) (by decide)

/-! ## Claim C10: nonpositive retention count deletes nothing -/

/-- C10: cleanup with a zero or negative keep_latest is a no-op. -/
theorem cleanup_nonpositive_noop (dir : List SnapFile) (keep : Int)
    (kind : String) (h : keep ≤ 0) :
    cleanup_old_files keep kind dir = (dir, []) := by
  unfold cleanup_old_files
  rw [if_pos h]

/-- C10 witness: zero retention on the three-file directory deletes
nothing. -/
theorem cleanup_nonpositive_noop_witness :
    cleanup_old_files 0 "models" dir3 = (dir3, []) :=
  cleanup_nonpositive_noop dir3 0 "models" (by decide)

/-! ## Claim C4: stub dataset nodes -/

/-- C4 counterexample: when a non-empty explicit dataset list is supplied,
no stub is synthesized for a relationship that targets the dataset squad,
so the snapshot carries a dangling dataset reference. -/
theorem builder_no_stub_with_datasets_cex :
    (build_from_data [] [squadRel] (some [otherDS])).datasets = [otherDS] ∧
    ¬ "squad" ∈ ((build_from_data [] [squadRel]
        (some [otherDS])).datasets.map DatasetNodeR.dataset_id) := by
  decide

/-- C4 amended: when no dataset list is supplied (or the supplied list is
empty), every relationship whose target kind is dataset yields a dataset
node with that target id and empty tags; in particular the squad
relationship with no dataset record produces exactly the stub. -/
theorem builder_stub_synthesis (models : List ModelNodeR)
    (rels : List RelationshipR) (datasets : Option (List DatasetNodeR))
    (hds : (datasets.getD []).isEmpty = true) :
    (∀ rel ∈ rels, rel.target_type = "dataset" →
      ∃ d ∈ (build_from_data models rels datasets).datasets,
        d.dataset_id = rel.target ∧ d.tags = []) ∧
    (build_from_data [] [squadRel] none).datasets =
      [{ dataset_id := "squad", tags := [] }] := by
  constructor
  · intro rel hrel htgt
    simp only [build_from_data]
    rw [if_pos hds]
    refine ⟨{ dataset_id := rel.target, tags := [] }, ?_, rfl, rfl⟩
    exact List.mem_map.mpr ⟨rel.target,
      List.mem_dedup.mpr (List.mem_map.mpr ⟨rel,
        List.mem_filter.mpr ⟨hrel, decide_eq_true htgt⟩, rfl⟩), rfl⟩
  · decide

/-- C4 witness: the amended theorem applied to the squad scenario. -/
theorem builder_stub_synthesis_witness :
    ∃ d ∈ (build_from_data [] [squadRel] none).datasets,
      d.dataset_id = squadRel.target ∧ d.tags = [] :=
  (builder_stub_synthesis [] [squadRel] none (by decide)).1 squadRel
    (by decide) (by decide)

/-! ## Claim C8: every persisted relationship type is enumerated -/

/-- Helper: a category returned by the siblings lookup is one of the four
fixed category names. -/
theorem sibling_category_mem (mid : String) (resp : SiblingsResponse)
    (c : String) (h : sibling_category mid resp = some c) :
    c ∈ sibling_categories := by
  cases resp with
  | failure => simp [sibling_category] at h
  | ok data =>
      unfold sibling_category at h
      exact List.mem_of_find?_eq_some h

/-- Helper: the filename heuristic only ever returns one of four types. -/
theorem infer_type_mem (mid bm t : String)
    (h : infer_relationship_type_from_name mid bm = some t) :
    t ∈ six_relationship_types := by
  unfold infer_relationship_type_from_name at h
  split_ifs at h <;> simp_all [six_relationship_types]

/-- C8: relationships surviving the snapshot filter with its default
allowed list, and every type the classifier can emit, lie in the six-value
enumeration; no other type string reaches the store. -/
theorem relationship_types_enumerated :
    (∀ (rels : List RelationshipR) (rel : RelationshipR),
      rel ∈ filter_relationships rels none →
        rel.relationship_type ∈ six_relationship_types) ∧
    (∀ (mid bm : String) (resp : SiblingsResponse) (t : String),
      get_relationship_type_from_tree mid bm resp = some t →
        t ∈ six_relationship_types) ∧
    (∀ (mid : String) (bm : Option String) (resp : SiblingsResponse)
      (rel : RelationshipR), rel ∈ extract_relationships mid bm resp →
        rel.relationship_type ∈ six_relationship_types) := by
  have tree : ∀ (mid bm : String) (resp : SiblingsResponse) (t : String),
      get_relationship_type_from_tree mid bm resp = some t →
        t ∈ six_relationship_types := by
    intro mid bm resp t h
    unfold get_relationship_type_from_tree at h
    cases hsc : sibling_category mid resp with
    | some c =>
        rw [hsc] at h
        have h2 : some c = some t := h
        have hct : c = t := Option.some.inj h2
        subst hct
        have hc := sibling_category_mem mid resp c hsc
        simp only [sibling_categories, List.mem_cons,
          List.not_mem_nil, or_false] at hc
        rcases hc with h | h | h | h <;>
          simp [six_relationship_types, h]
    | none =>
        rw [hsc] at h
        have h2 : infer_relationship_type_from_name mid bm = some t := h
        exact infer_type_mem mid bm t h2
  refine ⟨?_, tree, ?_⟩
  · intro rels rel h
    unfold filter_relationships at h
    have h2 := of_decide_eq_true (List.mem_filter.mp h).2
    simp only [Option.getD, default_allowed_types, List.mem_cons,
      List.not_mem_nil, or_false] at h2
    rcases h2 with h2 | h2 | h2 | h2 | h2 <;>
      simp [six_relationship_types, h2]
  · intro mid bm resp rel h
    cases bm with
    | none => simp [extract_relationships] at h
    | some b =>
        simp only [extract_relationships] at h
        cases ht : get_relationship_type_from_tree mid b resp with
        | none => rw [ht] at h; simp at h
        | some t =>
            rw [ht] at h
            simp at h
            rw [h]
            exact tree mid b resp t ht

/-- C8 witness: the filter part applied to a one-element list containing a
trained_on relationship. -/
theorem relationship_types_enumerated_witness :
    sampleRel.relationship_type ∈ six_relationship_types :=
  relationship_types_enumerated.1 [sampleRel] sampleRel (by decide)

/-! ## Claim C5: upsert_relationship and missing endpoints -/

/-- Helper: edge existence test used by the MERGE pattern. -/
def edge_exists (g : Neo4jGraph) (sl si rt tl ti : String) : Bool :=
  g.edges.any (fun e => edgeMatches e sl si rt tl ti)

/-- Helper: looking up the key just inserted finds the new value. -/
theorem lookup_dictInsert_self (k v : String)
    (l : List (String × String)) :
    lookup_str k (dictInsert k v l) = some v := by
  induction l with
  | nil => simp [dictInsert, lookup_str]
  | cons kv rest ih =>
      by_cases h : kv.1 = k
      · simp [dictInsert, h, lookup_str]
      · simp [dictInsert, h, lookup_str, ih]

/-- Helper: inserting a different key leaves a lookup unchanged. -/
theorem lookup_dictInsert_ne (k k2 v : String)
    (l : List (String × String)) (h : k ≠ k2) :
    lookup_str k (dictInsert k2 v l) = lookup_str k l := by
  have hne : ¬ k2 = k := fun hh => h hh.symm
  induction l with
  | nil => simp [dictInsert, lookup_str, hne]
  | cons kv rest ih =>
      by_cases hk : kv.1 = k2
      · simp [dictInsert, hk, lookup_str, hne]
      · by_cases hk2 : kv.1 = k
        · simp [dictInsert, hk, lookup_str, hk2, h]
        · simp [dictInsert, hk, lookup_str, hk2, ih]

/-- Helper: applying metadata that does not mention a key leaves that key
alone. -/
theorem lookup_applyProps_not_mem (k : String)
    (md : List (String × String)) (q : List (String × String))
    (h : k ∉ md.map Prod.fst) :
    lookup_str k (applyProps q md) = lookup_str k q := by
  induction md generalizing q with
  | nil => simp [applyProps]
  | cons kv rest ih =>
      simp only [List.map_cons, List.mem_cons, not_or] at h
      have step : applyProps q (kv :: rest) =
          applyProps (dictInsert kv.1 kv.2 q) rest := rfl
      rw [step, ih (dictInsert kv.1 kv.2 q) h.2,
        lookup_dictInsert_ne k kv.1 kv.2 q h.1]

/-- Helper: after applying metadata with distinct keys, every entry is
retrievable. -/
theorem lookup_applyProps_mem (md : List (String × String))
    (q : List (String × String)) (kv : String × String)
    (hnd : (md.map Prod.fst).Nodup) (h : kv ∈ md) :
    lookup_str kv.1 (applyProps q md) = some kv.2 := by
  induction md generalizing q with
  | nil => simp at h
  | cons a rest ih =>
      have step : applyProps q (a :: rest) =
          applyProps (dictInsert a.1 a.2 q) rest := rfl
      simp only [List.map_cons, List.nodup_cons] at hnd
      rcases List.mem_cons.mp h with rfl | hmem
      · rw [step, lookup_applyProps_not_mem kv.1 rest _ hnd.1,
          lookup_dictInsert_self]
      · rw [step]
        exact ih (dictInsert a.1 a.2 q) hnd.2 hmem

/-- C5 counterexample: creating a trained_on relationship on the empty
graph succeeds (no error is raised) and writes nothing — a missing
endpoint is a silent no-op, not a loud failure. -/
theorem create_relationship_missing_endpoint_cex :
    create_relationship neo4j_empty squadRel = Except.ok neo4j_empty := rfl

/-- C5 amended: with a well-formed relationship type and metadata keys
(valid Cypher identifiers not named source or target), the call never
errors: when an endpoint node is missing it returns the graph unchanged,
and when both endpoints exist it creates the typed edge if absent
(leaving the edge count unchanged when the edge already exists), keeps the
node sets unchanged, and attaches every metadata entry as an edge
property. -/
theorem create_relationship_semantics (g : Neo4jGraph) (rel : RelationshipR)
    (hv : validCypherIdent (upperChars rel.relationship_type) = true)
    (hmk : (rel.metadata.getD []).all (fun kv => validCypherIdent kv.1) = true)
    (hs : lookup_str "source" (rel.metadata.getD []) = none)
    (ht : lookup_str "target" (rel.metadata.getD []) = none) :
    (¬ (nodeExists g (if rel.source_type = "model" then "Model" else "Dataset")
          rel.source = true ∧
        nodeExists g (if rel.target_type = "model" then "Model" else "Dataset")
          rel.target = true) →
      create_relationship g rel = Except.ok g) ∧
    (nodeExists g (if rel.source_type = "model" then "Model" else "Dataset")
        rel.source = true →
     nodeExists g (if rel.target_type = "model" then "Model" else "Dataset")
        rel.target = true →
      ∃ g2, create_relationship g rel = Except.ok g2 ∧
        g2.models = g.models ∧ g2.datasets = g.datasets ∧
        edge_exists g2 (if rel.source_type = "model" then "Model" else "Dataset")
          rel.source (upperChars rel.relationship_type)
          (if rel.target_type = "model" then "Model" else "Dataset")
          rel.target = true ∧
        (edge_exists g (if rel.source_type = "model" then "Model" else "Dataset")
            rel.source (upperChars rel.relationship_type)
            (if rel.target_type = "model" then "Model" else "Dataset")
            rel.target = true →
          g2.edges.length = g.edges.length) ∧
        (edge_exists g (if rel.source_type = "model" then "Model" else "Dataset")
            rel.source (upperChars rel.relationship_type)
            (if rel.target_type = "model" then "Model" else "Dataset")
            rel.target = false →
          g2.edges.length = g.edges.length + 1) ∧
        (((rel.metadata.getD []).map Prod.fst).Nodup →
          ∃ e ∈ g2.edges,
            edgeMatches e
              (if rel.source_type = "model" then "Model" else "Dataset")
              rel.source (upperChars rel.relationship_type)
              (if rel.target_type = "model" then "Model" else "Dataset")
              rel.target = true ∧
            ∀ kv ∈ rel.metadata.getD [], lookup_str kv.1 e.props = some kv.2)) := by
  constructor
  · intro hmiss
    unfold create_relationship
    simp only [hv, hmk, Bool.and_self, if_true, hs, ht, Option.getD_none]
    rw [if_neg]
    intro hc
    rw [Bool.and_eq_true] at hc
    exact hmiss hc
  · intro hsrc htgt
    unfold create_relationship
    simp only [hv, hmk, Bool.and_self, if_true, hs, ht, Option.getD_none,
      hsrc, htgt]
    refine ⟨_, rfl, rfl, rfl, ?_, ?_, ?_, ?_⟩
    · -- the merged edge exists afterwards
      unfold edge_exists
      by_cases hex : List.any g.edges (fun e =>
          edgeMatches e (if rel.source_type = "model" then "Model" else "Dataset")
            rel.source (upperChars rel.relationship_type)
            (if rel.target_type = "model" then "Model" else "Dataset")
            rel.target) = true
      · simp only [mergeEdge, hex, if_true]
        rcases List.any_eq_true.mp hex with ⟨e0, he0, hm0⟩
        refine List.any_eq_true.mpr
          ⟨{ e0 with props := applyProps e0.props (rel.metadata.getD []) },
           List.mem_map.mpr ⟨e0, he0, by rw [if_pos hm0]⟩, ?_⟩
        simpa [edgeMatches] using hm0
      · simp only [mergeEdge, hex, Bool.false_eq_true, if_false]
        refine List.any_eq_true.mpr
          ⟨_, List.mem_append_right _ (List.mem_singleton.mpr rfl), ?_⟩
        simp [edgeMatches]
    · -- edge already present: length unchanged
      intro hex
      unfold edge_exists at hex
      simp [mergeEdge, hex]
    · -- edge absent: one new edge
      intro hex
      unfold edge_exists at hex
      simp [mergeEdge, hex]
    · -- metadata attached to a matching edge
      intro hnd
      by_cases hex : List.any g.edges (fun e =>
          edgeMatches e (if rel.source_type = "model" then "Model" else "Dataset")
            rel.source (upperChars rel.relationship_type)
            (if rel.target_type = "model" then "Model" else "Dataset")
            rel.target) = true
      · simp only [mergeEdge, hex, if_true]
        rcases List.any_eq_true.mp hex with ⟨e0, he0, hm0⟩
        refine ⟨{ e0 with props := applyProps e0.props (rel.metadata.getD []) },
          List.mem_map.mpr ⟨e0, he0, by rw [if_pos hm0]⟩, ?_, ?_⟩
        · simpa [edgeMatches] using hm0
        · intro kv hkv
          exact lookup_applyProps_mem (rel.metadata.getD []) e0.props kv hnd hkv
      · simp only [mergeEdge, hex, Bool.false_eq_true, if_false]
        refine ⟨_, List.mem_append_right _ (List.mem_singleton.mpr rfl), ?_, ?_⟩
        · simp [edgeMatches]
        · intro kv hkv
          exact lookup_applyProps_mem (rel.metadata.getD []) [] kv hnd hkv

/-- C5 witness: both endpoints present, metadata attached. -/
theorem create_relationship_semantics_witness :
    ∃ g2, create_relationship graphWithEndpoints relWithMeta = Except.ok g2 ∧
      g2.models = graphWithEndpoints.models ∧
      g2.datasets = graphWithEndpoints.datasets ∧
      edge_exists g2
        (if relWithMeta.source_type = "model" then "Model" else "Dataset")
        relWithMeta.source (upperChars relWithMeta.relationship_type)
        (if relWithMeta.target_type = "model" then "Model" else "Dataset")
        relWithMeta.target = true ∧
      (edge_exists graphWithEndpoints
          (if relWithMeta.source_type = "model" then "Model" else "Dataset")
          relWithMeta.source (upperChars relWithMeta.relationship_type)
          (if relWithMeta.target_type = "model" then "Model" else "Dataset")
          relWithMeta.target = true →
        g2.edges.length = graphWithEndpoints.edges.length) ∧
      (edge_exists graphWithEndpoints
          (if relWithMeta.source_type = "model" then "Model" else "Dataset")
          relWithMeta.source (upperChars relWithMeta.relationship_type)
          (if relWithMeta.target_type = "model" then "Model" else "Dataset")
          relWithMeta.target = false →
        g2.edges.length = graphWithEndpoints.edges.length + 1) ∧
      (((relWithMeta.metadata.getD []).map Prod.fst).Nodup →
        ∃ e ∈ g2.edges,
          edgeMatches e
            (if relWithMeta.source_type = "model" then "Model" else "Dataset")
            relWithMeta.source (upperChars relWithMeta.relationship_type)
            (if relWithMeta.target_type = "model" then "Model" else "Dataset")
            relWithMeta.target = true ∧
          ∀ kv ∈ relWithMeta.metadata.getD [],
            lookup_str kv.1 e.props = some kv.2) :=
  (create_relationship_semantics graphWithEndpoints relWithMeta
    (by decide) (by decide) (by decide) (by decide)).2 (by decide) (by decide)

/-! ## Claim C1: upstream-prioritized budget split -/

/-- Helper: the COALESCE-descending sort really is sorted. -/
theorem sorted_sortDescCoalesce (l : List (NeoNode × String)) :
    (sortDescCoalesce l).Pairwise
      (fun a b => coalesce0 b.1.downloads ≤ coalesce0 a.1.downloads) := by
  haveI : IsTotal (NeoNode × String)
      (fun a b => coalesce0 b.1.downloads ≤ coalesce0 a.1.downloads) :=
    ⟨fun a b => (le_total (coalesce0 a.1.downloads)
      (coalesce0 b.1.downloads)).symm⟩
  haveI : IsTrans (NeoNode × String)
      (fun a b => coalesce0 b.1.downloads ≤ coalesce0 a.1.downloads) :=
    ⟨fun _ _ _ hab hbc => le_trans hbc hab⟩
  exact List.sorted_insertionSort _ l

/-- C1: for a model root present in the store, at most MAX_RELATED
upstream neighbors are returned, ordered by descending popularity with
missing downloads treated as zero; the downstream selection never exceeds
the remaining budget, and with the budget exhausted the downstream query
is not issued; the two spec scenarios (15 upstream / 3 downstream and
4 upstream / 20 downstream) give 10 and 0, and 4 and 6. -/
theorem search_query_budget (store : NeoStore) (mid : String)
    (h : (findNode store NeoKind.model mid).isSome = true) :
    (model_upstream_res store mid).length ≤ MAX_RELATED ∧
    (model_upstream_res store mid).Pairwise
      (fun a b => coalesce0 b.1.downloads ≤ coalesce0 a.1.downloads) ∧
    (model_downstream_selected store mid).length ≤
      MAX_RELATED - (model_upstream_res store mid).length ∧
    (MAX_RELATED ≤ (model_upstream_res store mid).length →
      downstream_issued store mid = false ∧
      model_downstream_selected store mid = []) ∧
    ((model_upstream_res store15_3 "root").length = 10 ∧
      model_downstream_selected store15_3 "root" = [] ∧
      downstream_issued store15_3 "root" = false) ∧
    ((model_upstream_res store4_20 "root").length = 4 ∧
      (model_downstream_selected store4_20 "root").length = 6) := by
  refine ⟨?_, ?_, ?_, ?_, ?_, ?_⟩
  · unfold model_upstream_res
    split
    · exact List.length_take_le _ _
    · simp
  · unfold model_upstream_res
    split
    all_goals
      exact List.Pairwise.sublist (List.take_sublist _ _)
        (sorted_sortDescCoalesce _)
  · simp only [model_downstream_selected]
    split
    · unfold model_downstream_res
      split
      · exact List.length_take_le _ _
      · simp
    · simp
  · intro hu
    have hz : MAX_RELATED - (model_upstream_res store mid).length = 0 :=
      Nat.sub_eq_zero_of_le hu
    constructor
    · unfold downstream_issued
      rw [hz]
      decide
    · unfold model_downstream_selected
      rw [hz]
      simp
  · set_option maxRecDepth 20000 in decide
  · set_option maxRecDepth 40000 in decide

/-- C1 witness: the 4 upstream / 20 downstream store with its root. -/
theorem search_query_budget_witness :
    (model_upstream_res store4_20 "root").length ≤ MAX_RELATED ∧
    (model_downstream_selected store4_20 "root").length ≤
      MAX_RELATED - (model_upstream_res store4_20 "root").length :=
  ⟨(search_query_budget store4_20 "root" (by decide)).1,
   (search_query_budget store4_20 "root" (by decide)).2.2.1⟩

/-! ## Claim C6: node deduplication -/

/-- Ids of a result node list. -/
def entity_ids (l : List HFEntity) : List String := l.map get_entity_id

/-- Helper: the parsed entity keeps the id property of the stored node. -/
theorem get_entity_id_make (n : NeoNode) :
    get_entity_id (make_entity n) = n.node_id := by
  cases hk : n.kind <;> simp [make_entity, hk, get_entity_id]

/-- Helper: the id of the inserted entity appears after insertion. -/
theorem mem_ids_nodes_insert_self (e : HFEntity) (l : List HFEntity) :
    get_entity_id e ∈ entity_ids (nodes_insert e l) := by
  induction l with
  | nil => simp [nodes_insert, entity_ids]
  | cons x rest ih =>
      by_cases h : get_entity_id x = get_entity_id e
      · simp only [nodes_insert]
        rw [if_pos h]
        simp [entity_ids]
      · simp only [nodes_insert]
        rw [if_neg h]
        simp only [entity_ids, List.map_cons, List.mem_cons]
        exact Or.inr ih

/-- Helper: insertion never loses an id already present. -/
theorem mem_ids_nodes_insert_of_mem (e : HFEntity) (l : List HFEntity)
    (i : String) (hi : i ∈ entity_ids l) :
    i ∈ entity_ids (nodes_insert e l) := by
  induction l with
  | nil => simp [entity_ids] at hi
  | cons x rest ih =>
      simp only [entity_ids, List.map_cons, List.mem_cons] at hi
      by_cases h : get_entity_id x = get_entity_id e
      · simp only [nodes_insert]
        rw [if_pos h]
        simp only [entity_ids, List.map_cons, List.mem_cons]
        rcases hi with rfl | hi
        · exact Or.inl h
        · exact Or.inr hi
      · simp only [nodes_insert]
        rw [if_neg h]
        simp only [entity_ids, List.map_cons, List.mem_cons]
        rcases hi with rfl | hi
        · exact Or.inl rfl
        · exact Or.inr (ih hi)

/-- Helper: insertion adds at most the id of the inserted entity. -/
theorem ids_nodes_insert_subset (e : HFEntity) (l : List HFEntity) :
    ∀ i ∈ entity_ids (nodes_insert e l),
      i = get_entity_id e ∨ i ∈ entity_ids l := by
  induction l with
  | nil =>
      intro i hi
      simp [nodes_insert, entity_ids] at hi
      exact Or.inl hi
  | cons x rest ih =>
      intro i hi
      by_cases h : get_entity_id x = get_entity_id e
      · simp only [nodes_insert] at hi
        rw [if_pos h] at hi
        simp only [entity_ids, List.map_cons, List.mem_cons] at hi ⊢
        rcases hi with rfl | hi
        · exact Or.inl rfl
        · exact Or.inr (Or.inr hi)
      · simp only [nodes_insert] at hi
        rw [if_neg h] at hi
        simp only [entity_ids, List.map_cons, List.mem_cons] at hi ⊢
        rcases hi with rfl | hi
        · exact Or.inr (Or.inl rfl)
        · rcases ih i hi with h1 | h1
          · exact Or.inl h1
          · exact Or.inr (Or.inr h1)

/-- Helper: insertion keeps the id list free of duplicates. -/
theorem nodup_ids_nodes_insert (e : HFEntity) (l : List HFEntity)
    (h : (entity_ids l).Nodup) :
    (entity_ids (nodes_insert e l)).Nodup := by
  induction l with
  | nil => simp [nodes_insert, entity_ids]
  | cons x rest ih =>
      simp only [entity_ids, List.map_cons, List.nodup_cons] at h
      by_cases hx : get_entity_id x = get_entity_id e
      · simp only [nodes_insert]
        rw [if_pos hx]
        simp only [entity_ids, List.map_cons, List.nodup_cons]
        exact ⟨hx ▸ h.1, h.2⟩
      · simp only [nodes_insert]
        rw [if_neg hx]
        simp only [entity_ids, List.map_cons, List.nodup_cons]
        refine ⟨?_, ih h.2⟩
        intro hmem
        rcases ids_nodes_insert_subset e rest _ hmem with h1 | h1
        · exact hx h1
        · exact h.1 h1

/-- Helper: an element whose id differs from the inserted one stays. -/
theorem mem_nodes_insert_of_ne (e x : HFEntity) (l : List HFEntity)
    (hx : x ∈ l) (hne : get_entity_id x ≠ get_entity_id e) :
    x ∈ nodes_insert e l := by
  induction l with
  | nil => simp at hx
  | cons y rest ih =>
      by_cases hy : get_entity_id y = get_entity_id e
      · simp only [nodes_insert]
        rw [if_pos hy]
        rcases List.mem_cons.mp hx with rfl | hx2
        · exact absurd hy hne
        · exact List.mem_cons_of_mem _ hx2
      · simp only [nodes_insert]
        rw [if_neg hy]
        rcases List.mem_cons.mp hx with rfl | hx2
        · exact List.mem_cons_self _ _
        · exact List.mem_cons_of_mem _ (ih hx2)

/-- Helper: ids present before a fold of insertions are present after. -/
theorem foldl_insert_preserves_mem_ids (rs : List (NeoNode × String))
    (acc : List HFEntity) (i : String) (hi : i ∈ entity_ids acc) :
    i ∈ entity_ids
      (rs.foldl (fun acc r => nodes_insert (make_entity r.1) acc) acc) := by
  induction rs generalizing acc with
  | nil => simpa using hi
  | cons a rest ih => exact ih _ (mem_ids_nodes_insert_of_mem _ _ _ hi)

/-- Helper: every folded-in record contributes its id. -/
theorem foldl_insert_mem_ids (rs : List (NeoNode × String))
    (acc : List HFEntity) (r : NeoNode × String) (hr : r ∈ rs) :
    (r.1).node_id ∈ entity_ids
      (rs.foldl (fun acc r => nodes_insert (make_entity r.1) acc) acc) := by
  induction rs generalizing acc with
  | nil => simp at hr
  | cons a rest ih =>
      rcases List.mem_cons.mp hr with rfl | hr2
      · rw [List.foldl_cons]
        apply foldl_insert_preserves_mem_ids
        have hm := mem_ids_nodes_insert_self (make_entity r.1) acc
        rwa [get_entity_id_make] at hm
      · exact ih _ hr2

/-- Helper: a fold of insertions keeps the ids duplicate-free. -/
theorem foldl_insert_nodup (rs : List (NeoNode × String))
    (acc : List HFEntity) (h : (entity_ids acc).Nodup) :
    (entity_ids
      (rs.foldl (fun acc r => nodes_insert (make_entity r.1) acc) acc)).Nodup := by
  induction rs generalizing acc with
  | nil => simpa using h
  | cons a rest ih => exact ih _ (nodup_ids_nodes_insert _ _ h)

/-- Helper: an element survives a fold of insertions whose ids all
differ from its own. -/
theorem foldl_insert_preserves_elem (rs : List (NeoNode × String))
    (acc : List HFEntity) (x : HFEntity) (hx : x ∈ acc)
    (hne : ∀ r ∈ rs, (r.1).node_id ≠ get_entity_id x) :
    x ∈ rs.foldl (fun acc r => nodes_insert (make_entity r.1) acc) acc := by
  induction rs generalizing acc with
  | nil => simpa using hx
  | cons a rest ih =>
      refine ih _ (mem_nodes_insert_of_ne _ _ _ hx ?_)
        (fun r hr => hne r (List.mem_cons_of_mem _ hr))
      rw [get_entity_id_make]
      exact Ne.symm (hne a (List.mem_cons_self _ _))

/-- C6 counterexample: a model root and a dataset neighbor sharing the id
string x collapse into one node — the later dataset entity displaces the
root model, so the result neither keeps them as two distinct nodes nor
contains the root model. -/
theorem search_nodes_merge_same_id_cex :
    (search_query_impl store_clash "x").nodes =
      [HFEntity.dataset { dataset_id := "x", tags := [] }] ∧
    (search_query_impl store_clash "x").nodes.length = 1 := by
  decide

/-- C6 amended: for a model root found in the store, the returned node ids
are duplicate-free, include the queried id and the id of every selected
neighbor; nodes are deduplicated by id alone, so the root model entity
itself is guaranteed present only when no selected neighbor carries the
same id string. -/
theorem search_nodes_dedup_by_id (store : NeoStore) (mid : String)
    (rootN : NeoNode) (h : findNode store NeoKind.model mid = some rootN) :
    (entity_ids (search_query_impl store mid).nodes).Nodup ∧
    mid ∈ entity_ids (search_query_impl store mid).nodes ∧
    (∀ r ∈ model_upstream_res store mid ++ model_downstream_selected store mid,
      (r.1).node_id ∈ entity_ids (search_query_impl store mid).nodes) ∧
    ((∀ r ∈ model_upstream_res store mid ++ model_downstream_selected store mid,
      (r.1).node_id ≠ mid) →
      make_entity rootN ∈ (search_query_impl store mid).nodes) := by
  have hfind : store.nodes.find?
      (fun n => decide (n.kind = NeoKind.model ∧ n.node_id = mid)) =
        some rootN := h
  have hp := List.find?_some hfind
  have hroot : rootN.kind = NeoKind.model ∧ rootN.node_id = mid :=
    of_decide_eq_true hp
  have himpl : (search_query_impl store mid).nodes =
      assemble_nodes (make_entity rootN) (model_upstream_res store mid)
        (model_downstream_selected store mid) := by
    unfold search_query_impl
    rw [h]
  rw [himpl]
  simp only [assemble_nodes]
  have hbase : entity_ids [make_entity rootN] = [mid] := by
    simp [entity_ids, get_entity_id_make, hroot.2]
  refine ⟨?_, ?_, ?_, ?_⟩
  · refine foldl_insert_nodup _ _ (foldl_insert_nodup _ _ ?_)
    rw [hbase]
    exact List.nodup_singleton mid
  · refine foldl_insert_preserves_mem_ids _ _ _
      (foldl_insert_preserves_mem_ids _ _ _ ?_)
    rw [hbase]
    exact List.mem_singleton.mpr rfl
  · intro r hr
    rcases List.mem_append.mp hr with hup | hdown
    · exact foldl_insert_preserves_mem_ids _ _ _
        (foldl_insert_mem_ids _ _ r hup)
    · exact foldl_insert_mem_ids _ _ r hdown
  · intro hne
    refine foldl_insert_preserves_elem _ _ _
      (foldl_insert_preserves_elem _ _ _ (List.mem_singleton.mpr rfl) ?_) ?_
    · intro r hr
      rw [get_entity_id_make, hroot.2]
      exact hne r (List.mem_append.mpr (Or.inl hr))
    · intro r hr
      rw [get_entity_id_make, hroot.2]
      exact hne r (List.mem_append.mpr (Or.inr hr))

/-- C6 witness: the clashing store, where the queried id is still among
the returned node ids. -/
theorem search_nodes_dedup_by_id_witness :
    "x" ∈ entity_ids (search_query_impl store_clash "x").nodes :=
  (search_nodes_dedup_by_id store_clash "x"
    { kind := NeoKind.model, node_id := "x" } (by decide)).2.1

/-! ## Claim C9: retention cleanup -/

/-- Helper: the mtime sort is a permutation of its input. -/
theorem sortByMtimeDesc_perm (files : List SnapFile) :
    List.Perm (sortByMtimeDesc files) files :=
  List.perm_insertionSort _ _

/-- Helper: the mtime sort is descending. -/
theorem sorted_sortByMtimeDesc (files : List SnapFile) :
    (sortByMtimeDesc files).Pairwise (fun a b => b.mtime ≤ a.mtime) := by
  haveI : IsTotal SnapFile (fun a b => b.mtime ≤ a.mtime) :=
    ⟨fun a b => Nat.le_total b.mtime a.mtime⟩
  haveI : IsTrans SnapFile (fun a b => b.mtime ≤ a.mtime) :=
    ⟨fun _ _ _ hab hbc => le_trans hbc hab⟩
  exact List.sorted_insertionSort _ _

/-- Helper: in a descending list with distinct mtimes, dropping the first
k elements keeps exactly the elements with at least k strictly larger
mtimes. -/
theorem sorted_mem_drop_iff (s : List SnapFile)
    (hs : s.Pairwise (fun a b => b.mtime ≤ a.mtime))
    (hnd : (s.map SnapFile.mtime).Nodup) (k : Nat) (f : SnapFile)
    (hf : f ∈ s) :
    f ∈ s.drop k ↔ k ≤ s.countP (fun g => decide (f.mtime < g.mtime)) := by
  induction s generalizing k with
  | nil => simp at hf
  | cons a t ih =>
      rw [List.pairwise_cons] at hs
      simp only [List.map_cons, List.nodup_cons] at hnd
      cases k with
      | zero =>
          simp only [List.drop_zero, Nat.zero_le, iff_true]
          exact hf
      | succ k =>
          rw [List.drop_succ_cons, List.countP_cons]
          rcases List.mem_cons.mp hf with rfl | hft
          · have hnotmem : f ∉ t.drop k := by
              intro hmem
              exact hnd.1 (List.mem_map_of_mem SnapFile.mtime
                (List.mem_of_mem_drop hmem))
            have hcount : t.countP (fun g => decide (f.mtime < g.mtime)) = 0 := by
              rw [List.countP_eq_zero]
              intro g hg
              simp only [decide_eq_true_eq, not_lt]
              exact hs.1 g hg
            rw [hcount]
            simp [hnotmem]
          · have hlt : f.mtime < a.mtime := by
              have hle := hs.1 f hft
              have hne : a.mtime ≠ f.mtime := fun he =>
                hnd.1 (he ▸ List.mem_map_of_mem SnapFile.mtime hft)
              exact lt_of_le_of_ne hle (fun hh => hne hh.symm)
            have hIH := ih hs.2 hnd.2 k hft
            rw [hIH]
            simp [hlt]

/-- C9: for a valid kind and positive n, cleanup only ever deletes files
matching the glob of that kind; it deletes nothing when at most n files
match; with distinct modification times and all unlink calls succeeding, a
matching file is deleted exactly when at least n matching files are more
recent; a single failed unlink does not prevent deletion of the other
files; and retaining 2 of the 3 model snapshot files deletes exactly the
oldest one. -/
theorem cleanup_retention (dir : List SnapFile) (n : Int) (kind : String)
    (pp : String × String) (hn : 0 < n) (hk : globPattern kind = some pp) :
    (∀ f ∈ (cleanup_old_files n kind dir).2, glob_matches pp f.name = true) ∧
    (((dir.filter (fun f => glob_matches pp f.name)).length : Int) ≤ n →
      (cleanup_old_files n kind dir).2 = []) ∧
    (((dir.filter (fun f => glob_matches pp f.name)).map SnapFile.mtime).Nodup →
      (∀ f ∈ dir, f.unlink_ok = true) →
      ∀ f ∈ dir.filter (fun f => glob_matches pp f.name),
        (f ∈ (cleanup_old_files n kind dir).2 ↔
          n.toNat ≤ (dir.filter (fun f => glob_matches pp f.name)).countP
            (fun g => decide (f.mtime < g.mtime)))) ∧
    (n < ((dir.filter (fun f => glob_matches pp f.name)).length : Int) →
      ∀ f ∈ (sortByMtimeDesc
          (dir.filter (fun f => glob_matches pp f.name))).drop n.toNat,
        f.unlink_ok = true → f ∈ (cleanup_old_files n kind dir).2) ∧
    (cleanup_old_files 2 "models" dir3).2 =
      [{ name := "models_a.json", mtime := 1, unlink_ok := true }] := by
  have hnneg : ¬ n ≤ 0 := not_le.mpr hn
  by_cases hlen : ((dir.filter (fun f => glob_matches pp f.name)).length : Int) ≤ n
  · -- at most n matching files: nothing is deleted
    have hres : cleanup_old_files n kind dir = (dir, []) := by
      unfold cleanup_old_files
      rw [if_neg hnneg, hk]
      simp only []
      rw [if_pos hlen]
    refine ⟨?_, ?_, ?_, ?_, ?_⟩
    · intro f hf
      rw [hres] at hf
      simp at hf
    · intro _
      rw [hres]
    · intro hndm hok f hfmem
      rw [hres]
      simp only [List.not_mem_nil, false_iff, not_le]
      have hcp : (dir.filter (fun f => glob_matches pp f.name)).countP
          (fun g => decide (f.mtime < g.mtime)) <
          (dir.filter (fun f => glob_matches pp f.name)).length := by
        rw [List.countP_eq_length_filter]
        have hsub : ((dir.filter (fun f => glob_matches pp f.name)).filter
            (fun g => decide (f.mtime < g.mtime))).Sublist
            (dir.filter (fun f => glob_matches pp f.name)) :=
          List.filter_sublist _
        have hle := hsub.length_le
        have hne : ((dir.filter (fun f => glob_matches pp f.name)).filter
            (fun g => decide (f.mtime < g.mtime))).length ≠
            (dir.filter (fun f => glob_matches pp f.name)).length := by
          intro he
          have heq := hsub.eq_of_length he
          have hpf := (List.mem_filter.mp (heq ▸ hfmem)).2
          simp at hpf
        omega
      omega
    · intro habs
      exact absurd habs (not_lt.mpr hlen)
    · decide
  · -- more than n matching files: the drop of the sort is deleted
    have hres : cleanup_old_files n kind dir =
        (dir.filter (fun f => decide (f ∉
          ((sortByMtimeDesc (dir.filter (fun f => glob_matches pp f.name))).drop
            n.toNat).filter (fun f => f.unlink_ok))),
         ((sortByMtimeDesc (dir.filter (fun f => glob_matches pp f.name))).drop
            n.toNat).filter (fun f => f.unlink_ok)) := by
      unfold cleanup_old_files
      rw [if_neg hnneg, hk]
      simp only []
      rw [if_neg hlen]
    refine ⟨?_, ?_, ?_, ?_, ?_⟩
    · intro f hf
      rw [hres] at hf
      have h1 : f ∈ (sortByMtimeDesc
          (dir.filter (fun f => glob_matches pp f.name))).drop n.toNat :=
        (List.mem_filter.mp hf).1
      have h2 : f ∈ dir.filter (fun f => glob_matches pp f.name) :=
        (sortByMtimeDesc_perm _).mem_iff.mp (List.mem_of_mem_drop h1)
      exact (List.mem_filter.mp h2).2
    · intro habs
      exact absurd habs hlen
    · intro hndm hok f hfmem
      rw [hres]
      have hmemsort : f ∈ sortByMtimeDesc
          (dir.filter (fun f => glob_matches pp f.name)) :=
        (sortByMtimeDesc_perm _).mem_iff.mpr hfmem
      have hstep : f ∈ ((sortByMtimeDesc
          (dir.filter (fun f => glob_matches pp f.name))).drop
            n.toNat).filter (fun f => f.unlink_ok) ↔
          f ∈ (sortByMtimeDesc
          (dir.filter (fun f => glob_matches pp f.name))).drop n.toNat := by
        constructor
        · intro hm
          exact (List.mem_filter.mp hm).1
        · intro hm
          exact List.mem_filter.mpr ⟨hm, hok f (List.mem_of_mem_filter hfmem)⟩
      rw [hstep]
      have hndsort : ((sortByMtimeDesc
          (dir.filter (fun f => glob_matches pp f.name))).map
            SnapFile.mtime).Nodup :=
        (((sortByMtimeDesc_perm _).map SnapFile.mtime).nodup_iff).mpr hndm
      rw [sorted_mem_drop_iff _ (sorted_sortByMtimeDesc _) hndsort n.toNat f
        hmemsort]
      rw [(sortByMtimeDesc_perm
        (dir.filter (fun f => glob_matches pp f.name))).countP_eq
        (fun g => decide (f.mtime < g.mtime))]
    · intro _ f hfd hfok
      rw [hres]
      exact List.mem_filter.mpr ⟨hfd, hfok⟩
    · decide

/-- C9 witness: the three-file directory with n = 2 and the models kind,
where exactly the oldest file is deleted. -/
theorem cleanup_retention_witness :
    (cleanup_old_files 2 "models" dir3).2 =
      [{ name := "models_a.json", mtime := 1, unlink_ok := true }] :=
  (cleanup_retention dir3 2 "models" ("models_", ".json")
    (by decide) (by decide)).2.2.2.2
